import Mathlib

/-!
Verification of the OpenCPX Go SDK (package cpx) against its specification.

The Go source embedded here:
  * src/unnamed/part_002 : package cpx — the data model (Posture, Organization,
    Framework, Control), the builder operations (NewPosture, AddFramework,
    SetOrganization, SetPosture, AddExtension), serialization (ToJSON via
    encoding/json with the struct tags of the source), and
    CalculateOverallPosture.
  * src/sdk/go/handler.go : the HTTP handler built from a Provider.

Modelling conventions, each justified by the Go source:
  * Go `type FrameworkStatus string` (and the other status types) are string
    types, not closed enums: any string inhabits them, and the named constants
    are just distinguished values.  We therefore model statuses as `String`.
  * `Score float64` is modelled as `ℚ`; encoding/json round-trips float64
    exactly and the source performs no float arithmetic, only comparisons.
  * `Timestamp time.Time` is modelled as the opaque `String` it renders to in
    JSON (RFC3339, as produced by time.Time.MarshalJSON); `time.Now().UTC()`
    is passed in as an explicit parameter `now`.
  * The non-omitempty slice field `Frameworks []Framework` is modelled as
    `Option (List Framework)`: `none` is a Go nil slice (which encoding/json
    marshals as `null`), `some l` a non-nil slice.  For omitempty slice and
    map fields nil and empty are indistinguishable on the wire (both are
    omitted), so those are modelled as plain lists.
  * `Extensions map[string]interface{}` is modelled as an association list
    kept sorted by key — the canonical representative of a Go map, matching
    the fact that encoding/json emits map keys in sorted order.
  * A JSON document is the inductive `Json` below; a `Json` value stands for
    its (deterministic, canonical) compact rendering, so equality of `Json`
    values is byte-identity of marshal output.
-/

/-- A JSON value, standing for JSON bytes.  Object fields carry the emission
order (encoding/json emits struct fields in declaration order and map keys
sorted). -/
inductive Json where
  | null : Json
  | bool (b : Bool) : Json
  | num (q : ℚ) : Json
  | str (s : String) : Json
  | arr (elems : List Json) : Json
  | obj (fields : List (String × Json)) : Json

mutual

def Json.decEq : (a b : Json) → Decidable (a = b)
  | .null, .null => .isTrue rfl
  | .bool a, .bool b =>
      match instDecidableEqBool a b with
      | .isTrue h => .isTrue (by rw [h])
      | .isFalse h => .isFalse (fun hh => by cases hh; exact h rfl)
  | .num a, .num b =>
      match (inferInstance : DecidableEq ℚ) a b with
      | .isTrue h => .isTrue (by rw [h])
      | .isFalse h => .isFalse (fun hh => by cases hh; exact h rfl)
  | .str a, .str b =>
      match instDecidableEqString a b with
      | .isTrue h => .isTrue (by rw [h])
      | .isFalse h => .isFalse (fun hh => by cases hh; exact h rfl)
  | .arr a, .arr b =>
      match Json.decEqList a b with
      | .isTrue h => .isTrue (by rw [h])
      | .isFalse h => .isFalse (fun hh => by cases hh; exact h rfl)
  | .obj a, .obj b =>
      match Json.decEqObj a b with
      | .isTrue h => .isTrue (by rw [h])
      | .isFalse h => .isFalse (fun hh => by cases hh; exact h rfl)
  | .null, .bool _ | .null, .num _ | .null, .str _ | .null, .arr _ | .null, .obj _
  | .bool _, .null | .bool _, .num _ | .bool _, .str _ | .bool _, .arr _ | .bool _, .obj _
  | .num _, .null | .num _, .bool _ | .num _, .str _ | .num _, .arr _ | .num _, .obj _
  | .str _, .null | .str _, .bool _ | .str _, .num _ | .str _, .arr _ | .str _, .obj _
  | .arr _, .null | .arr _, .bool _ | .arr _, .num _ | .arr _, .str _ | .arr _, .obj _
  | .obj _, .null | .obj _, .bool _ | .obj _, .num _ | .obj _, .str _ | .obj _, .arr _ =>
      .isFalse (fun h => by cases h)

def Json.decEqList : (a b : List Json) → Decidable (a = b)
  | [], [] => .isTrue rfl
  | [], _ :: _ => .isFalse (fun h => by cases h)
  | _ :: _, [] => .isFalse (fun h => by cases h)
  | x :: xs, y :: ys =>
      match Json.decEq x y with
      | .isFalse h => .isFalse (fun hh => by cases hh; exact h rfl)
      | .isTrue h1 =>
        match Json.decEqList xs ys with
        | .isTrue h2 => .isTrue (by rw [h1, h2])
        | .isFalse h2 => .isFalse (fun hh => by cases hh; exact h2 rfl)

def Json.decEqObj : (a b : List (String × Json)) → Decidable (a = b)
  | [], [] => .isTrue rfl
  | [], _ :: _ => .isFalse (fun h => by cases h)
  | _ :: _, [] => .isFalse (fun h => by cases h)
  | (k1, v1) :: xs, (k2, v2) :: ys =>
      match instDecidableEqString k1 k2 with
      | .isFalse h => .isFalse (fun hh => by cases hh; exact h rfl)
      | .isTrue hk =>
        match Json.decEq v1 v2 with
        | .isFalse h => .isFalse (fun hh => by cases hh; exact h rfl)
        | .isTrue hv =>
          match Json.decEqObj xs ys with
          | .isTrue h2 => .isTrue (by rw [hk, hv, h2])
          | .isFalse h2 => .isFalse (fun hh => by cases hh; exact h2 rfl)

end

instance : DecidableEq Json := Json.decEq

/-- Go: `const Version = "v1"`. -/
def VersionConst : String := "v1"

/-- Go: `PostureCompliant CompliancePosture = "compliant"`. -/
def PostureCompliant : String := "compliant"

/-- Go: `PosturePartiallyCompliant CompliancePosture = "partially_compliant"`. -/
def PosturePartiallyCompliant : String := "partially_compliant"

/-- Go: `PostureNonCompliant CompliancePosture = "non_compliant"`. -/
def PostureNonCompliant : String := "non_compliant"

/-- Go: `PostureUnknown CompliancePosture = "unknown"`. -/
def PostureUnknown : String := "unknown"

/-- Go: `StatusCompliant FrameworkStatus = "compliant"`. -/
def StatusCompliant : String := "compliant"

/-- Go: `StatusPartial FrameworkStatus = "partial"`. -/
def StatusPartialGo : String := "partial"

/-- Go: `StatusNonCompliant FrameworkStatus = "non_compliant"`. -/
def StatusNonCompliantGo : String := "non_compliant"

/-- Go struct Organization (part_002 lines 52–56). -/
structure Organization where
  name : String
  domain : String
  contact : String
deriving DecidableEq

/-- Go struct Control (part_002 lines 72–79). -/
structure Control where
  id : String
  title : String
  status : String
  reason : String
  remediationDate : String
  evidenceRefs : List String
deriving DecidableEq

/-- Go struct Framework (part_002 lines 59–69). -/
structure Framework where
  name : String
  version : String
  status : String
  score : ℚ
  lastAudit : String
  auditor : String
  reportRef : String
  certificateRef : String
  controls : List Control
deriving DecidableEq

/-- Go struct Posture (part_002 lines 41–49).  `frameworks = none` models a
Go nil slice, `organization = none` a nil pointer; `extensions` models the Go
map as a key-sorted association list. -/
structure Posture where
  version : String
  timestamp : String
  compliancePosture : String
  organization : Option Organization
  frameworks : Option (List Framework)
  evidenceRefs : List Json
  extensions : List (String × Json)
deriving DecidableEq

/-- The framework list the Go loops and `len` see: a nil slice behaves as the
empty list. -/
def Posture.frameworksList (p : Posture) : List Framework :=
  p.frameworks.getD []

/-- Go NewPosture (part_002 lines 92–98): only Version, Timestamp and
Frameworks are set; every other field keeps its Go zero value.  `now` is the
rendering of `time.Now().UTC()`. -/
def NewPosture (now : String) : Posture :=
  { version := VersionConst
    timestamp := now
    compliancePosture := ""
    organization := none
    frameworks := some []
    evidenceRefs := []
    extensions := [] }

/-- Go AddFramework (part_002 lines 101–104): `p.Frameworks = append(p.Frameworks, f)`.
Go's append on a nil slice allocates, so the result is always non-nil. -/
def AddFramework (p : Posture) (f : Framework) : Posture :=
  { p with frameworks := some (p.frameworksList ++ [f]) }

/-- Go SetOrganization (part_002 lines 107–110). -/
def SetOrganization (p : Posture) (org : Organization) : Posture :=
  { p with organization := some org }

/-- Go SetPosture (part_002 lines 113–116). -/
def SetPosture (p : Posture) (posture : String) : Posture :=
  { p with compliancePosture := posture }

/-- Insertion into the sorted association list representing a Go map:
`m[key] = value` overwrites an existing binding or inserts at the sorted
position. -/
def mapInsert (k : String) (v : Json) : List (String × Json) → List (String × Json)
  | [] => [(k, v)]
  | (k0, v0) :: rest =>
      if k = k0 then (k, v) :: rest
      else if k < k0 then (k, v) :: (k0, v0) :: rest
      else (k0, v0) :: mapInsert k v rest

/-- Go AddExtension (part_002 lines 119–125): lazily creates the map (a nil
map and the empty list coincide in this model) and sets `p.Extensions[key]`. -/
def AddExtension (p : Posture) (key : String) (value : Json) : Posture :=
  { p with extensions := mapInsert key value p.extensions }

/-- Go NewFramework (part_002 lines 164–171): Name, Status, Score set,
Controls set to the empty (non-nil) slice, other fields zero. -/
def NewFramework (name : String) (status : String) (score : ℚ) : Framework :=
  { name := name
    version := ""
    status := status
    score := score
    lastAudit := ""
    auditor := ""
    reportRef := ""
    certificateRef := ""
    controls := [] }

/-- Go AddControl (part_002 lines 174–177). -/
def AddControl (f : Framework) (c : Control) : Framework :=
  { f with controls := f.controls ++ [c] }

/-- Go NewControl (part_002 lines 180–185). -/
def NewControl (id : String) (status : String) : Control :=
  { id := id
    title := ""
    status := status
    reason := ""
    remediationDate := ""
    evidenceRefs := [] }

/-- The loop body of CalculateOverallPosture (part_002 lines 146–152), folded
left over the frameworks: the state is the pair (allCompliant, anyCompliant). -/
def postureLoop (fs : List Framework) (st : Bool × Bool) : Bool × Bool :=
  match fs with
  | [] => st
  | f :: rest =>
      postureLoop rest
        (if f.status = StatusCompliant then (st.1, true) else (false, st.2))

/-- Go CalculateOverallPosture (part_002 lines 138–161), literally: empty
check, one pass computing allCompliant/anyCompliant, then the three-way
return. -/
def CalculateOverallPosture (p : Posture) : String :=
  if p.frameworksList.length = 0 then PostureUnknown
  else
    let st := postureLoop p.frameworksList (true, false)
    if st.1 then PostureCompliant
    else if st.2 then PosturePartiallyCompliant
    else PostureNonCompliant

/-- The aggregation algorithm exactly as §4.1 of the spec words it, for the
refinement comparison of claim C1: empty → unknown; all compliant →
compliant; any compliant → partially_compliant; else non_compliant. -/
def specAggregation (fs : List Framework) : String :=
  if fs = [] then "unknown"
  else if fs.all (fun f => f.status = StatusCompliant) then "compliant"
  else if fs.any (fun f => f.status = StatusCompliant) then "partially_compliant"
  else "non_compliant"

/-- The fields encoding/json emits for an Organization per the struct tags
(part_002 lines 52–56): `name` required, `domain` and `contact` omitempty
(an empty string is empty). -/
def organizationFields (o : Organization) : List (String × Json) :=
  [("name", Json.str o.name)]
    ++ (if o.domain = "" then [] else [("domain", Json.str o.domain)])
    ++ (if o.contact = "" then [] else [("contact", Json.str o.contact)])

/-- encoding/json on Organization. -/
def marshalOrganization (o : Organization) : Json :=
  Json.obj (organizationFields o)

/-- The fields encoding/json emits for a Control per the struct tags
(part_002 lines 72–79). -/
def controlFields (c : Control) : List (String × Json) :=
  [("id", Json.str c.id)]
    ++ (if c.title = "" then [] else [("title", Json.str c.title)])
    ++ [("status", Json.str c.status)]
    ++ (if c.reason = "" then [] else [("reason", Json.str c.reason)])
    ++ (if c.remediationDate = "" then []
        else [("remediation_date", Json.str c.remediationDate)])
    ++ (if c.evidenceRefs = [] then []
        else [("evidence_refs", Json.arr (c.evidenceRefs.map Json.str))])

/-- encoding/json on Control. -/
def marshalControl (c : Control) : Json :=
  Json.obj (controlFields c)

/-- The fields encoding/json emits for a Framework per the struct tags
(part_002 lines 59–69): `name`, `status`, `score` always emitted; the rest
omitempty. -/
def frameworkFields (f : Framework) : List (String × Json) :=
  [("name", Json.str f.name)]
    ++ (if f.version = "" then [] else [("version", Json.str f.version)])
    ++ [("status", Json.str f.status), ("score", Json.num f.score)]
    ++ (if f.lastAudit = "" then [] else [("last_audit", Json.str f.lastAudit)])
    ++ (if f.auditor = "" then [] else [("auditor", Json.str f.auditor)])
    ++ (if f.reportRef = "" then [] else [("report_ref", Json.str f.reportRef)])
    ++ (if f.certificateRef = "" then []
        else [("certificate_ref", Json.str f.certificateRef)])
    ++ (if f.controls = [] then []
        else [("controls", Json.arr (f.controls.map marshalControl))])

/-- encoding/json on Framework. -/
def marshalFramework (f : Framework) : Json :=
  Json.obj (frameworkFields f)

/-- Sorted insertion used to model encoding/json's sorting of map keys. -/
def insertKeyed (kv : String × Json) : List (String × Json) → List (String × Json)
  | [] => [kv]
  | x :: xs => if kv.1 ≤ x.1 then kv :: x :: xs else x :: insertKeyed kv xs

/-- encoding/json emits map keys in sorted order. -/
def sortKeys (l : List (String × Json)) : List (String × Json) :=
  l.foldr insertKeyed []

/-- The fields encoding/json emits for a Posture per the struct tags
(part_002 lines 41–49): `version`, `timestamp`, `compliance_posture` always
emitted; `organization` omitempty (nil pointer omitted); `frameworks` NOT
omitempty, so always emitted — as null for a nil slice; `evidence_refs` and
`extensions` omitempty (empty slice/map omitted).  Extension and evidence
values are stored as the JSON trees they serialize to, so they are emitted
as-is (with the keys of the extensions map itself sorted, as encoding/json
does for maps). -/
def postureFields (p : Posture) : List (String × Json) :=
  [("version", Json.str p.version),
   ("timestamp", Json.str p.timestamp),
   ("compliance_posture", Json.str p.compliancePosture)]
    ++ (match p.organization with
        | none => []
        | some o => [("organization", marshalOrganization o)])
    ++ [("frameworks",
         match p.frameworks with
         | none => Json.null
         | some fs => Json.arr (fs.map marshalFramework))]
    ++ (if p.evidenceRefs = [] then []
        else [("evidence_refs", Json.arr p.evidenceRefs)])
    ++ (if p.extensions = [] then []
        else [("extensions", Json.obj (sortKeys p.extensions))])

/-- encoding/json on Posture. -/
def marshalPosture (p : Posture) : Json :=
  Json.obj (postureFields p)

/-- Whether a JSON object emits a given key at all. -/
def hasKey (k : String) (kvs : List (String × Json)) : Bool :=
  kvs.any (fun kv => kv.1 = k)

/-- Go ToJSON (part_002 lines 128–130): `json.Marshal(p)`, as the Json value
standing for its bytes.  The error return of json.Marshal is nil for every
value of this model (no channels/funcs/NaN can occur), so it is elided. -/
def ToJSON (p : Posture) : Json :=
  marshalPosture p

/-- The part of an http.Request the handler consults: the method and the
value of the `format` query parameter (empty when absent). -/
structure Request where
  method : String
  formatQuery : String
deriving DecidableEq

/-- The bytes written to the ResponseWriter: either plain text, or the
json.MarshalIndent rendering of a Json value. -/
inductive HttpBody where
  | text (s : String) : HttpBody
  | jsonIndent (v : Json) : HttpBody
deriving DecidableEq

/-- The observable response: status code, headers, body. -/
structure Response where
  status : Nat
  headers : List (String × String)
  body : HttpBody
deriving DecidableEq

/-- http.Header.Set: replace an existing header or append it. -/
def setHeader (hs : List (String × String)) (k v : String) : List (String × String) :=
  if hs.any (fun kv => kv.1 = k)
  then hs.map (fun kv => if kv.1 = k then (k, v) else kv)
  else hs ++ [(k, v)]

/-- net/http's http.Error: sets Content-Type to text/plain, adds nosniff,
writes the code and the message followed by a newline (fmt.Fprintln). -/
def httpError (hs : List (String × String)) (msg : String) (code : Nat) : Response :=
  { status := code
    headers := setHeader (setHeader hs "Content-Type" "text/plain; charset=utf-8")
        "X-Content-Type-Options" "nosniff"
    body := HttpBody.text (msg ++ "\n") }

/-- Go Handler (handler.go lines 12–52).  The provider models
`func() (*Posture, error)`: `.error ()` is a non-nil error.  The
`err != nil` check after json.MarshalIndent is dead in this model because
MarshalIndent cannot fail on a Posture value (comment at ToJSON). -/
def Handler (provider : Except Unit Posture) (r : Request) : Response :=
  if r.method ≠ "GET" then httpError [] "Method not allowed" 405
  else
    match provider with
    | Except.error _ => httpError [] "Internal server error" 500
    | Except.ok posture =>
        if r.formatQuery = "yaml" then
          httpError [("Content-Type", "application/json")]
            "\x7b\"error\": \"YAML format requires gopkg.in/yaml.v3\"\x7d" 501
        else
          { status := 200
            headers := setHeader (setHeader [] "Content-Type" "application/json")
                "X-CPX-Version" VersionConst
            body := HttpBody.jsonIndent (marshalPosture posture) }

/-- json.Unmarshal's object-key lookup: with duplicate keys the last wins. -/
def goLookup (k : String) (kvs : List (String × Json)) : Option Json :=
  List.lookup k kvs.reverse

/-- json.Unmarshal decodes a JSON array element-wise, failing if any element
fails. -/
def parseAll {α : Type} (f : Json → Option α) : List Json → Option (List α)
  | [] => some []
  | j :: rest => do
      let x ← f j
      let xs ← parseAll f rest
      pure (x :: xs)

/-- Unmarshal into a Go string field: an absent key or JSON null keeps the
zero value ""; a value of any other JSON kind is a decode error. -/
def fieldString (kvs : List (String × Json)) (k : String) : Option String :=
  match goLookup k kvs with
  | none => some ""
  | some Json.null => some ""
  | some (Json.str s) => some s
  | some _ => none

/-- Unmarshal into a Go float64 field: absent/null keep the zero value 0. -/
def fieldNum (kvs : List (String × Json)) (k : String) : Option ℚ :=
  match goLookup k kvs with
  | none => some 0
  | some Json.null => some 0
  | some (Json.num q) => some q
  | some _ => none

/-- Unmarshal into a Go []string field: absent/null give the nil slice
(identified with [] for this omitempty field). -/
def fieldStringList (kvs : List (String × Json)) (k : String) : Option (List String) :=
  match goLookup k kvs with
  | none => some []
  | some Json.null => some []
  | some (Json.arr xs) =>
      parseAll (fun j => match j with | Json.str s => some s | _ => none) xs
  | some _ => none

/-- json.Unmarshal into Control per the struct tags. -/
def parseControl (j : Json) : Option Control :=
  match j with
  | Json.obj kvs => do
      let id ← fieldString kvs "id"
      let title ← fieldString kvs "title"
      let status ← fieldString kvs "status"
      let reason ← fieldString kvs "reason"
      let rd ← fieldString kvs "remediation_date"
      let ev ← fieldStringList kvs "evidence_refs"
      pure { id := id, title := title, status := status, reason := reason,
             remediationDate := rd, evidenceRefs := ev }
  | _ => none

/-- json.Unmarshal into Framework per the struct tags. -/
def parseFramework (j : Json) : Option Framework :=
  match j with
  | Json.obj kvs => do
      let name ← fieldString kvs "name"
      let version ← fieldString kvs "version"
      let status ← fieldString kvs "status"
      let score ← fieldNum kvs "score"
      let la ← fieldString kvs "last_audit"
      let au ← fieldString kvs "auditor"
      let rr ← fieldString kvs "report_ref"
      let cr ← fieldString kvs "certificate_ref"
      let cs ← (match goLookup "controls" kvs with
        | none => some []
        | some Json.null => some []
        | some (Json.arr xs) => parseAll parseControl xs
        | some _ => none)
      pure { name := name, version := version, status := status, score := score,
             lastAudit := la, auditor := au, reportRef := rr,
             certificateRef := cr, controls := cs }
  | _ => none

/-- json.Unmarshal into Organization per the struct tags. -/
def parseOrganization (j : Json) : Option Organization :=
  match j with
  | Json.obj kvs => do
      let name ← fieldString kvs "name"
      let domain ← fieldString kvs "domain"
      let contact ← fieldString kvs "contact"
      pure { name := name, domain := domain, contact := contact }
  | _ => none

/-- json.Unmarshal into Posture per the struct tags: a nil *Organization and a
nil Frameworks slice result from absent keys or null; `evidence_refs` decodes
each element as a generic JSON value; `extensions` decodes into a Go map,
represented canonically with sorted keys. -/
def parsePosture (j : Json) : Option Posture :=
  match j with
  | Json.obj kvs => do
      let v ← fieldString kvs "version"
      let ts ← fieldString kvs "timestamp"
      let cp ← fieldString kvs "compliance_posture"
      let org ← (match goLookup "organization" kvs with
        | none => some none
        | some Json.null => some none
        | some oj => (parseOrganization oj).map some)
      let fws ← (match goLookup "frameworks" kvs with
        | none => some none
        | some Json.null => some none
        | some (Json.arr xs) => (parseAll parseFramework xs).map some
        | some _ => none)
      let ev ← (match goLookup "evidence_refs" kvs with
        | none => some []
        | some Json.null => some []
        | some (Json.arr xs) => some xs
        | some _ => none)
      let ext ← (match goLookup "extensions" kvs with
        | none => some []
        | some Json.null => some []
        | some (Json.obj kvs2) => some (sortKeys kvs2)
        | some _ => none)
      pure { version := v, timestamp := ts, compliancePosture := cp,
             organization := org, frameworks := fws,
             evidenceRefs := ev, extensions := ext }
  | _ => none

/-- http.Header.Get: the first value set for a key. -/
def getHeader (hs : List (String × String)) (k : String) : Option String :=
  (hs.find? (fun kv => kv.1 = k)).map (fun kv => kv.2)

/-- The receiver-state view of the CalculateOverallPosture loop (part_002
lines 146–152): the method's mutable state is the receiver plus the two
flags; no statement of the loop assigns to the receiver. -/
def postureLoopS (fs : List Framework) (st : Posture × Bool × Bool) :
    Posture × Bool × Bool :=
  match fs with
  | [] => st
  | f :: rest =>
      postureLoopS rest
        (st.1, if f.status = StatusCompliant then (st.2.1, true) else (false, st.2.2))

/-- The receiver-state view of CalculateOverallPosture (part_002 lines
138–161): returns the receiver as left by the method body together with the
returned value. -/
def CalculateOverallPostureS (p : Posture) : Posture × String :=
  if p.frameworksList.length = 0 then (p, PostureUnknown)
  else
    let st := postureLoopS p.frameworksList (p, true, false)
    if st.2.1 then (st.1, PostureCompliant)
    else if st.2.2 then (st.1, PosturePartiallyCompliant)
    else (st.1, PostureNonCompliant)

/-- A sample timestamp rendering, for concrete witnesses. -/
def ts0 : String := "2025-10-16T12:00:00Z"

/-- A posture whose Frameworks slice is nil, as the Go zero value
`Posture{}` or an explicit `Frameworks: nil` literal has. -/
def nilFrameworksPosture : Posture :=
  { NewPosture ts0 with frameworks := none }

/-- A concrete posture exercising every part of the builder API. -/
def sampleP : Posture :=
  AddExtension
    (AddFramework
      (SetOrganization
        (SetPosture (NewPosture ts0) "partially_compliant")
        { name := "Acme", domain := "acme.com", contact := "" })
      (AddControl (NewFramework "SOC2" "partial" (7/10)) (NewControl "CC1.1" "partial")))
    "x-acme-extra" (Json.num 5)

/-- A GET request with no format parameter. -/
def getReq : Request := { method := "GET", formatQuery := "" }

/-- A posture whose frameworks are one `partial` and one `non_compliant`,
with no `compliant` entry. -/
def pPartialOnly : Posture :=
  AddFramework (AddFramework (NewPosture ts0) (NewFramework "HIPAA" "partial" 1))
    (NewFramework "GDPR" "non_compliant" 0)

/-- A compliant framework, for the permutation witness. -/
def fwA : Framework := NewFramework "SOC2" "compliant" 1

/-- A partial framework, for the permutation witness. -/
def fwB : Framework := NewFramework "ISO27001" "partial" (1/2)

/-- The two frameworks in one order. -/
def pOrderA : Posture := AddFramework (AddFramework (NewPosture ts0) fwA) fwB

/-- The two frameworks in the other order. -/
def pOrderB : Posture := AddFramework (AddFramework (NewPosture ts0) fwB) fwA

/-- A framework violating both of the spec's validation rules: empty name and
score 2, outside [0,1]. -/
def badFramework : Framework := NewFramework "" "partial" 2

theorem postureLoop_eq (fs : List Framework) (a b : Bool) :
    postureLoop fs (a, b) =
      (a && fs.all (fun f => f.status = StatusCompliant),
       b || fs.any (fun f => f.status = StatusCompliant)) := by
  induction fs generalizing a b with
  | nil => simp [postureLoop]
  | cons f rest ih =>
      by_cases h : f.status = StatusCompliant <;>
        simp [postureLoop, h, ih]

theorem calcOverall_eq_specAggregation (p : Posture) :
    CalculateOverallPosture p = specAggregation p.frameworksList := by
  unfold CalculateOverallPosture specAggregation
  rcases hfs : p.frameworksList with _ | ⟨f, rest⟩
  · simp [PostureUnknown]
  · cases hall : (f :: rest).all (fun g => g.status = StatusCompliant) <;>
      cases hany : (f :: rest).any (fun g => g.status = StatusCompliant) <;>
        simp [postureLoop_eq, hall, hany, PostureCompliant,
          PosturePartiallyCompliant, PostureNonCompliant, PostureUnknown]

/-- C1: CalculateOverallPosture implements the aggregation algorithm exactly
as §4.1 of the spec words it, on the framework list of every posture: empty
list → unknown; else all statuses compliant → compliant; else at least one
compliant → partially_compliant; else non_compliant. -/
theorem calculateOverallPosture_implements_spec_aggregation (p : Posture) :
    CalculateOverallPosture p = specAggregation p.frameworksList :=
  calcOverall_eq_specAggregation p

/-- C2: on every non-empty framework list with no `compliant` status — however
many are `partial` versus `non_compliant`, and indeed whatever non-compliant
strings the statuses are — CalculateOverallPosture returns non_compliant. -/
theorem no_compliant_rolls_up_non_compliant (p : Posture)
    (hne : p.frameworksList ≠ [])
    (hnc : ∀ f ∈ p.frameworksList, f.status ≠ StatusCompliant) :
    CalculateOverallPosture p = PostureNonCompliant := by
  rw [calcOverall_eq_specAggregation]
  unfold specAggregation
  rcases hfs : p.frameworksList with _ | ⟨f, rest⟩
  · exact absurd hfs hne
  · rw [hfs] at hnc
    have hany : (f :: rest).any (fun g => g.status = StatusCompliant) = false := by
      simp only [List.any_eq_false, decide_eq_true_eq]
      exact hnc
    have hall : (f :: rest).all (fun g => g.status = StatusCompliant) = false := by
      simp only [List.all_eq_false, decide_eq_true_eq]
      exact ⟨f, List.mem_cons_self f rest, hnc f (List.mem_cons_self f rest)⟩
    simp [hall, hany, PostureNonCompliant]

/-- Witness for C2 at a concrete posture with one partial and one
non_compliant framework. -/
theorem no_compliant_rolls_up_non_compliant_witness :
    CalculateOverallPosture pPartialOnly = PostureNonCompliant :=
  no_compliant_rolls_up_non_compliant pPartialOnly (by decide) (by decide)

theorem postureLoopS_eq (fs : List Framework) (p : Posture) (a b : Bool) :
    postureLoopS fs (p, a, b) = (p, postureLoop fs (a, b)) := by
  induction fs generalizing a b with
  | nil => rfl
  | cons f rest ih =>
      by_cases h : f.status = StatusCompliant <;>
        simp [postureLoopS, postureLoop, h, ih]

/-- C9: CalculateOverallPosture is a pure read: the receiver-state view of
the method returns the receiver unchanged (in particular without writing the
result into compliance_posture), and the returned value is the pure
function's. -/
theorem calculateOverallPosture_does_not_mutate (p : Posture) :
    (CalculateOverallPostureS p).1 = p ∧
    (CalculateOverallPostureS p).1.compliancePosture = p.compliancePosture ∧
    (CalculateOverallPostureS p).2 = CalculateOverallPosture p := by
  unfold CalculateOverallPostureS CalculateOverallPosture
  by_cases h : p.frameworksList.length = 0
  · simp [h]
  · simp only [h, if_false, postureLoopS_eq]
    split
    · simp
    · split <;> simp

theorem specAggregation_perm (fs gs : List Framework) (h : List.Perm fs gs) :
    specAggregation fs = specAggregation gs := by
  unfold specAggregation
  have hnil : (fs = []) ↔ (gs = []) := by
    constructor <;> intro hh
    · exact (hh ▸ h).symm.eq_nil
    · exact (hh ▸ h).eq_nil
  have hall : fs.all (fun f => f.status = StatusCompliant)
      = gs.all (fun f => f.status = StatusCompliant) := by
    cases hgs : gs.all (fun f => f.status = StatusCompliant)
    · rw [List.all_eq_false] at hgs ⊢
      obtain ⟨x, hx, hpx⟩ := hgs
      exact ⟨x, h.mem_iff.mpr hx, hpx⟩
    · rw [List.all_eq_true] at hgs ⊢
      exact fun x hx => hgs x (h.mem_iff.mp hx)
  have hany : fs.any (fun f => f.status = StatusCompliant)
      = gs.any (fun f => f.status = StatusCompliant) := by
    cases hgs : gs.any (fun f => f.status = StatusCompliant)
    · rw [List.any_eq_false] at hgs ⊢
      exact fun x hx => hgs x (h.mem_iff.mp hx)
    · rw [List.any_eq_true] at hgs ⊢
      obtain ⟨x, hx, hpx⟩ := hgs
      exact ⟨x, h.mem_iff.mpr hx, hpx⟩
  simp only [hnil, hall, hany]

/-- C10: the aggregation result is order-independent — permuting the
framework list leaves CalculateOverallPosture's value unchanged. -/
theorem calculateOverallPosture_order_independent (p q : Posture)
    (h : List.Perm p.frameworksList q.frameworksList) :
    CalculateOverallPosture p = CalculateOverallPosture q := by
  rw [calcOverall_eq_specAggregation, calcOverall_eq_specAggregation]
  exact specAggregation_perm _ _ h

/-- Witness for C10 at two concrete postures holding the same two frameworks
in swapped order. -/
theorem calculateOverallPosture_order_independent_witness :
    CalculateOverallPosture pOrderA = CalculateOverallPosture pOrderB :=
  calculateOverallPosture_order_independent pOrderA pOrderB
    (by exact List.Perm.swap fwB fwA [])

/-- C3 counterexample: AddFramework performs no validation — adding a
framework whose name is empty and whose score is 2 (outside [0,1]) does not
fail, and the frameworks list is changed by the call, contradicting the
claimed ValidationError-with-unchanged-list behavior. -/
theorem addFramework_no_validation_counterexample :
    (AddFramework (NewPosture ts0) badFramework).frameworks
        = some [badFramework] ∧
    (AddFramework (NewPosture ts0) badFramework).frameworks
        ≠ (NewPosture ts0).frameworks := by
  exact ⟨rfl, by decide⟩

/-- C3 amended: AddFramework validates nothing and cannot fail: for every
posture and every framework — empty name and out-of-range score included,
boundary scores 0 and 1 included — it appends the framework to the
frameworks list and leaves every other field of the posture unchanged; no
ValidationError exists in the Go SDK. -/
theorem addFramework_always_appends (p : Posture) (f : Framework) :
    (AddFramework p f).frameworksList = p.frameworksList ++ [f] ∧
    (AddFramework p f).version = p.version ∧
    (AddFramework p f).timestamp = p.timestamp ∧
    (AddFramework p f).compliancePosture = p.compliancePosture ∧
    (AddFramework p f).organization = p.organization ∧
    (AddFramework p f).evidenceRefs = p.evidenceRefs ∧
    (AddFramework p f).extensions = p.extensions :=
  ⟨rfl, rfl, rfl, rfl, rfl, rfl, rfl⟩

/-- C4 counterexample: NewPosture leaves the compliance posture at the Go
zero value "", which is not "unknown". -/
theorem newPosture_posture_not_unknown_counterexample :
    (NewPosture ts0).compliancePosture = "" ∧
    (NewPosture ts0).compliancePosture ≠ PostureUnknown :=
  ⟨rfl, by decide⟩

/-- C4 amended: NewPosture returns a posture whose version is "v1", whose
timestamp is the construction time (time.Now().UTC(), passed as `now`),
whose frameworks list is empty (and non-nil), and whose remaining fields keep
their Go zero values — in particular the compliance posture is the empty
string, not "unknown". -/
theorem newPosture_defaults (now : String) :
    (NewPosture now).version = VersionConst ∧
    (NewPosture now).timestamp = now ∧
    (NewPosture now).compliancePosture = "" ∧
    (NewPosture now).frameworks = some [] ∧
    (NewPosture now).organization = none ∧
    (NewPosture now).evidenceRefs = [] ∧
    (NewPosture now).extensions = [] :=
  ⟨rfl, rfl, rfl, rfl, rfl, rfl, rfl⟩

theorem any_if (c : Prop) [Decidable c] (l1 l2 : List (String × Json))
    (f : String × Json → Bool) :
    (if c then l1 else l2).any f = if c then l1.any f else l2.any f := by
  split <;> rfl

/-- C5 counterexample: a posture whose Frameworks slice is nil (the Go zero
value) serializes with `frameworks` emitted as null, not as the empty array
— so "frameworks is always emitted as [] when empty" fails on it. -/
theorem frameworks_nil_serializes_null_counterexample :
    marshalPosture nilFrameworksPosture
      = Json.obj [("version", Json.str "v1"), ("timestamp", Json.str ts0),
          ("compliance_posture", Json.str ""), ("frameworks", Json.null)] ∧
    goLookup "frameworks" (postureFields nilFrameworksPosture)
        ≠ some (Json.arr []) :=
  ⟨rfl, by decide⟩

/-- C5 amended: the field-presence rules hold with one correction: each
optional field that is unset/empty (organization, evidence_refs, extensions,
and the optional Framework/Control fields) is omitted entirely from the
output; `frameworks` is always emitted — as [] when it is the empty non-nil
slice (as every posture built by NewPosture has), but as null when the slice
is nil. -/
theorem serialization_field_presence (p : Posture) (f : Framework) (c : Control) :
    (p.organization = none → hasKey "organization" (postureFields p) = false) ∧
    (p.evidenceRefs = [] → hasKey "evidence_refs" (postureFields p) = false) ∧
    (p.extensions = [] → hasKey "extensions" (postureFields p) = false) ∧
    hasKey "frameworks" (postureFields p) = true ∧
    (p.frameworks = some [] → ("frameworks", Json.arr []) ∈ postureFields p) ∧
    (p.frameworks = none → ("frameworks", Json.null) ∈ postureFields p) ∧
    (f.version = "" → hasKey "version" (frameworkFields f) = false) ∧
    (f.lastAudit = "" → hasKey "last_audit" (frameworkFields f) = false) ∧
    (f.auditor = "" → hasKey "auditor" (frameworkFields f) = false) ∧
    (f.reportRef = "" → hasKey "report_ref" (frameworkFields f) = false) ∧
    (f.certificateRef = "" → hasKey "certificate_ref" (frameworkFields f) = false) ∧
    (f.controls = [] → hasKey "controls" (frameworkFields f) = false) ∧
    (c.title = "" → hasKey "title" (controlFields c) = false) ∧
    (c.reason = "" → hasKey "reason" (controlFields c) = false) ∧
    (c.remediationDate = "" → hasKey "remediation_date" (controlFields c) = false) ∧
    (c.evidenceRefs = [] → hasKey "evidence_refs" (controlFields c) = false) := by
  refine ⟨?_, ?_, ?_, ?_, ?_, ?_, ?_, ?_, ?_, ?_, ?_, ?_, ?_, ?_, ?_, ?_⟩
  · intro h
    cases hf : p.frameworks <;>
      simp [postureFields, hasKey, h, hf, any_if, List.any_append]
  · intro h
    cases ho : p.organization <;> cases hf : p.frameworks <;>
      simp [postureFields, hasKey, h, ho, hf, any_if, List.any_append]
  · intro h
    cases ho : p.organization <;> cases hf : p.frameworks <;>
      simp [postureFields, hasKey, h, ho, hf, any_if, List.any_append]
  · cases ho : p.organization <;> cases hf : p.frameworks <;>
      simp [postureFields, hasKey, ho, hf, any_if, List.any_append]
  · intro h
    cases ho : p.organization <;>
      simp [postureFields, h, ho, List.mem_append]
  · intro h
    cases ho : p.organization <;>
      simp [postureFields, h, ho, List.mem_append]
  · intro h
    simp [frameworkFields, hasKey, h, any_if, List.any_append]
  · intro h
    simp [frameworkFields, hasKey, h, any_if, List.any_append]
  · intro h
    simp [frameworkFields, hasKey, h, any_if, List.any_append]
  · intro h
    simp [frameworkFields, hasKey, h, any_if, List.any_append]
  · intro h
    simp [frameworkFields, hasKey, h, any_if, List.any_append]
  · intro h
    simp [frameworkFields, hasKey, h, any_if, List.any_append]
  · intro h
    simp [controlFields, hasKey, h, any_if, List.any_append]
  · intro h
    simp [controlFields, hasKey, h, any_if, List.any_append]
  · intro h
    simp [controlFields, hasKey, h, any_if, List.any_append]
  · intro h
    simp [controlFields, hasKey, h, any_if, List.any_append]

/-- Witness for C5's amended theorem at concrete inputs: a fresh posture
(omits organization, evidence_refs, extensions; emits frameworks as []), a
fresh framework and control (omit their optional fields), and a nil-slice
posture (emits frameworks as null). -/
theorem serialization_field_presence_witness :
    hasKey "organization" (postureFields (NewPosture ts0)) = false ∧
    hasKey "evidence_refs" (postureFields (NewPosture ts0)) = false ∧
    hasKey "extensions" (postureFields (NewPosture ts0)) = false ∧
    hasKey "frameworks" (postureFields (NewPosture ts0)) = true ∧
    ("frameworks", Json.arr []) ∈ postureFields (NewPosture ts0) ∧
    ("frameworks", Json.null) ∈ postureFields nilFrameworksPosture ∧
    hasKey "version" (frameworkFields (NewFramework "SOC2" "compliant" 1)) = false ∧
    hasKey "controls" (frameworkFields (NewFramework "SOC2" "compliant" 1)) = false ∧
    hasKey "title" (controlFields (NewControl "CC1.1" "compliant")) = false := by
  obtain ⟨h1, h2, h3, h4, h5, _, h7, _, _, _, _, h12, h13, _⟩ :=
    serialization_field_presence (NewPosture ts0)
      (NewFramework "SOC2" "compliant" 1) (NewControl "CC1.1" "compliant")
  obtain ⟨_, _, _, _, _, h6, _⟩ :=
    serialization_field_presence nilFrameworksPosture
      (NewFramework "SOC2" "compliant" 1) (NewControl "CC1.1" "compliant")
  exact ⟨h1 rfl, h2 rfl, h3 rfl, h4, h5 rfl, h6 rfl, h7 rfl, h12 rfl, h13 rfl⟩

/-- C6: serialization is deterministic and repeatable: ToJSON is a pure
function of the posture, so two calls without intervening mutation give the
same bytes; the timestamp it emits is exactly the posture's stored timestamp
field, which is fixed by NewPosture at construction and never regenerated by
serialization. -/
theorem toJSON_deterministic_timestamp_fixed (p : Posture) (now : String) :
    ToJSON p = ToJSON p ∧
    ("timestamp", Json.str p.timestamp) ∈ postureFields p ∧
    (NewPosture now).timestamp = now := by
  refine ⟨rfl, ?_, rfl⟩
  simp [postureFields, List.mem_append]

theorem parseAll_map_roundtrip {α : Type} (f : α → Json) (g : Json → Option α)
    (h : ∀ x, g (f x) = some x) (l : List α) :
    parseAll g (l.map f) = some l := by
  induction l with
  | nil => rfl
  | cons x rest ih => simp [parseAll, h, ih]

theorem parse_marshal_control (c : Control) :
    parseControl (marshalControl c) = some c := by
  obtain ⟨id, title, status, reason, rd, ev⟩ := c
  by_cases h1 : title = "" <;> by_cases h2 : reason = "" <;>
    by_cases h3 : rd = "" <;> by_cases h4 : ev = [] <;>
      simp [marshalControl, controlFields, parseControl, fieldString,
        fieldStringList, goLookup, h1, h2, h3, h4,
        parseAll_map_roundtrip Json.str
          (fun j => match j with | Json.str s => some s | _ => none)
          (fun x => rfl),
        List.reverse_append, List.lookup]

theorem parse_marshal_organization (o : Organization) :
    parseOrganization (marshalOrganization o) = some o := by
  obtain ⟨name, domain, contact⟩ := o
  by_cases h1 : domain = "" <;> by_cases h2 : contact = "" <;>
    simp [marshalOrganization, organizationFields, parseOrganization,
      fieldString, goLookup, h1, h2, List.reverse_append, List.lookup]

set_option maxHeartbeats 1000000 in
theorem parse_marshal_framework (f : Framework) :
    parseFramework (marshalFramework f) = some f := by
  obtain ⟨name, version, status, score, la, au, rr, cr, cs⟩ := f
  by_cases h1 : version = "" <;> by_cases h2 : la = "" <;>
    by_cases h3 : au = "" <;> by_cases h4 : rr = "" <;>
      by_cases h5 : cr = "" <;> by_cases h6 : cs = [] <;>
        simp [marshalFramework, frameworkFields, parseFramework, fieldString,
          fieldNum, goLookup, h1, h2, h3, h4, h5, h6,
          parseAll_map_roundtrip marshalControl parseControl
            parse_marshal_control,
          List.reverse_append, List.lookup]

theorem parse_orgFields (o : Organization) :
    parseOrganization (Json.obj (organizationFields o)) = some o :=
  parse_marshal_organization o

set_option maxHeartbeats 1000000 in
/-- C7: round-trip law — for every Posture whose extensions association list
is in the canonical (key-sorted) form every Go map has, parsing the
serialized form returns exactly the posture, field for field. -/
theorem parse_serialize_roundtrip (p : Posture)
    (h : sortKeys p.extensions = p.extensions) :
    parsePosture (ToJSON p) = some p := by
  obtain ⟨v, ts, cp, org, fws, ev, ext⟩ := p
  simp only [sortKeys] at h
  cases org <;> cases fws <;>
    by_cases h1 : ev = [] <;> by_cases h2 : ext = [] <;>
      simp [ToJSON, marshalPosture, postureFields, parsePosture, fieldString,
        goLookup, h1, h2, sortKeys, h, marshalOrganization, parse_orgFields,
        parseAll_map_roundtrip marshalFramework parseFramework
          parse_marshal_framework,
        List.reverse_append, List.lookup]

/-- Witness for C7 at a concrete posture exercising organization, a framework
with a control, and an extension. -/
theorem parse_serialize_roundtrip_witness :
    parsePosture (ToJSON sampleP) = some sampleP :=
  parse_serialize_roundtrip sampleP (by decide)

/-- C8 counterexample: on a GET whose provider fails, the handler's 500
response body is the plain text written by http.Error — "Internal server
error" and a newline — not the JSON error envelope; and a GET with
format=yaml and a succeeding provider gets 501, not 200. -/
theorem handler_error_body_counterexample :
    (Handler (Except.error ()) getReq).status = 500 ∧
    (Handler (Except.error ()) getReq).body
        = HttpBody.text "Internal server error\n" ∧
    (Handler (Except.error ()) getReq).body
        ≠ HttpBody.text "\x7b\"error\": \"Internal server error\"\x7d" ∧
    (Handler (Except.ok (NewPosture ts0))
        { method := "GET", formatQuery := "yaml" }).status = 501 := by
  refine ⟨rfl, rfl, by decide, rfl⟩

/-- C8 amended: a non-GET request gets 405; a GET whose provider returns an
error gets 500 with the plain-text body "Internal server error" plus newline
(not a JSON envelope); a GET with format=yaml and a succeeding provider gets
501; a GET with any other format value and a succeeding provider gets 200
with the indented JSON serialization of the posture and the
X-CPX-Version: v1 header. -/
theorem handler_responses (provider : Except Unit Posture) (r : Request)
    (p : Posture) :
    (r.method ≠ "GET" → (Handler provider r).status = 405) ∧
    (r.method = "GET" → provider = Except.error () →
        (Handler provider r).status = 500 ∧
        (Handler provider r).body = HttpBody.text "Internal server error\n") ∧
    (r.method = "GET" → provider = Except.ok p → r.formatQuery = "yaml" →
        (Handler provider r).status = 501) ∧
    (r.method = "GET" → provider = Except.ok p → r.formatQuery ≠ "yaml" →
        (Handler provider r).status = 200 ∧
        (Handler provider r).body = HttpBody.jsonIndent (marshalPosture p) ∧
        getHeader (Handler provider r).headers "X-CPX-Version"
          = some VersionConst) := by
  refine ⟨?_, ?_, ?_, ?_⟩
  · intro h1
    simp [Handler, h1, httpError, setHeader]
  · intro h1 h2
    subst h2
    simp [Handler, h1, httpError, setHeader]
  · intro h1 h2 h3
    subst h2
    simp [Handler, h1, h3, httpError, setHeader]
  · intro h1 h2 h3
    subst h2
    simp [Handler, h1, h3, httpError, setHeader, getHeader, List.find?]

/-- Witness for C8's amended theorem: a plain GET with a succeeding provider
gets 200. -/
theorem handler_responses_witness :
    (Handler (Except.ok (NewPosture ts0)) getReq).status = 200 :=
  ((handler_responses (Except.ok (NewPosture ts0)) getReq
      (NewPosture ts0)).2.2.2 rfl rfl (by decide)).1
